import Mathlib

/-!
Verification of the mrlm-net/simbrief Go client library.

The development shallowly embeds the request encoder (`FlightPlanRequest.ToURLValues`),
the model validators, the polymorphic `StaticIDField` JSON codec, and the pure
parsing and formatting helpers (`RouteHelper`, `TimeHelper`) from
`pkg/types/request.go`, `pkg/types/response.go`, `pkg/client/helpers.go` and
`pkg/client/client.go`.  Go strings are Lean `String`s, Go `int` is `Int`
(word-size overflow is irrelevant at the magnitudes this library handles),
Go `float64` values are modelled as exact rationals (`Rat`), Go `*bool` is
`Option Bool`, and Go `error` results are `Except String` or `Option String`
carrying the exact message produced by the source.
-/

set_option maxHeartbeats 4000000
set_option maxRecDepth 8000

namespace Simbrief

/-! ## Basic string and list utilities mirroring the Go standard library -/

/-- Left-pads a string with the character zero up to width `w`.
Models the padding performed by the Go format verb for a fixed minimum width. -/
def zeroPadLeft (w : Nat) (s : String) : String :=
  String.mk (List.replicate (w - s.length) '0') ++ s

/-- Models the Go format `%03d` applied to an `int`: decimal rendering
zero-padded to a total width of 3 (a leading minus sign counts toward the
width, as in Go). -/
def sprintf03d (n : Int) : String :=
  if n < 0 then "-" ++ zeroPadLeft 2 (Nat.repr n.natAbs)
  else zeroPadLeft 3 (Nat.repr n.natAbs)

/-- Models Go `strconv.FormatFloat(v, 'f', -1, 64)`: the shortest decimal
string that reads back as the value.  Float64 values are modelled as exact
rationals, for which the shortest faithful decimal is the exact finite
decimal expansion with the minimal number of fractional digits. -/
def formatFloat (q : Rat) : String :=
  match (List.range 18).findSome? (fun k =>
      if (q * ((10 : Rat) ^ k)).den = 1 then some ((q * ((10 : Rat) ^ k)).num, k) else none) with
  | some (n, 0) => Int.repr n
  | some (n, Nat.succ k) =>
      let a := n.natAbs
      (if n < 0 then "-" else "") ++ Nat.repr (a / 10 ^ (k + 1)) ++ "." ++
        zeroPadLeft (k + 1) (Nat.repr (a % 10 ^ (k + 1)))
  | none => Int.repr q.num ++ "/" ++ Nat.repr q.den

/-- Drops leading whitespace from a character list (left half of Go
`strings.TrimSpace`). -/
def trimL (cs : List Char) : List Char := cs.dropWhile Char.isWhitespace

/-- Drops trailing whitespace from a character list (right half of Go
`strings.TrimSpace`). -/
def trimR (cs : List Char) : List Char :=
  (cs.reverse.dropWhile Char.isWhitespace).reverse

/-- Models Go `strings.TrimSpace`. -/
def trimSpace (s : String) : String := String.mk (trimR (trimL s.data))

/-- Models Go `strings.ToUpper` on the ASCII inputs this library handles. -/
def goToUpper (s : String) : String := String.mk (s.data.map Char.toUpper)

/-- Splits a character list at every occurrence of the separator character.
Models Go `strings.Split` with a one-character separator: the empty input
yields one empty part, and `n` separators yield `n + 1` parts. -/
def splitOnChar (sep : Char) : List Char → List (List Char)
  | [] => [[]]
  | c :: rest =>
    if c = sep then [] :: splitOnChar sep rest
    else
      match splitOnChar sep rest with
      | h :: t => (c :: h) :: t
      | [] => [[c]]

/-- Models Go `strings.Split(s, sep)` for a one-character separator. -/
def goSplit (s : String) (sep : Char) : List String :=
  (splitOnChar sep s.data).map String.mk

/-- Parses a nonempty run of ASCII digits as a natural number; any other
character (or an empty list) fails. -/
def parseDigits (cs : List Char) : Option Nat :=
  if cs = [] then none
  else if cs.all Char.isDigit then
    some (cs.foldl (fun a c => a * 10 + (c.toNat - 48)) 0)
  else none

/-- Models Go `strconv.Atoi`: an optional sign followed by at least one
decimal digit; anything else is an error (`none`). -/
def atoi (s : String) : Option Int :=
  match s.data with
  | '+' :: rest => (parseDigits rest).map Int.ofNat
  | '-' :: rest => (parseDigits rest).map (fun n => -(n : Int))
  | cs => (parseDigits cs).map Int.ofNat

/-- Accumulator worker for `tokens`: `acc` holds the reversed characters of
the field currently being read. -/
def fieldsAux : List Char → List Char → List (List Char)
  | acc, [] => if acc = [] then [] else [acc.reverse]
  | acc, c :: cs =>
    if c.isWhitespace then
      if acc = [] then fieldsAux [] cs else acc.reverse :: fieldsAux [] cs
    else fieldsAux (c :: acc) cs

/-- The whitespace-delimited tokens of a character list, in order: runs of
whitespace are collapsed and leading and trailing whitespace is ignored.
Models Go `strings.Fields` and the tokenization described by the spec. -/
def tokens (cs : List Char) : List (List Char) := fieldsAux [] cs

instance {ε α : Type} [DecidableEq ε] [DecidableEq α] : DecidableEq (Except ε α) := fun x y =>
  match x, y with
  | .ok a, .ok b =>
    if h : a = b then .isTrue (by rw [h]) else .isFalse (fun hh => h (Except.ok.inj hh))
  | .error a, .error b =>
    if h : a = b then .isTrue (by rw [h]) else .isFalse (fun hh => h (Except.error.inj hh))
  | .ok _, .error _ => .isFalse (fun hh => Except.noConfusion hh)
  | .error _, .ok _ => .isFalse (fun hh => Except.noConfusion hh)

/-- Lexicographic at-most on character lists; models the key ordering Go
uses when encoding URL values (byte-wise string comparison on the ASCII
keys this library produces). -/
def charListLe : List Char → List Char → Bool
  | [], _ => true
  | _ :: _, [] => false
  | a :: as, b :: bs => if a = b then charListLe as bs else decide (a < b)

/-- Insert into a key-sorted association list. -/
def insertSorted (kv : String × String) : List (String × String) → List (String × String)
  | [] => [kv]
  | x :: xs => if charListLe kv.1.data x.1.data then kv :: x :: xs else x :: insertSorted kv xs

/-- Insertion sort by key; models the sorted-key iteration of Go
`url.Values.Encode`. -/
def sortByKey : List (String × String) → List (String × String)
  | [] => []
  | x :: xs => insertSorted x (sortByKey xs)

/-- One hexadecimal digit, uppercase (as Go percent-encoding emits). -/
def hexDigitUpper (n : Nat) : Char :=
  if n < 10 then Char.ofNat (48 + n) else Char.ofNat (55 + n)

/-- Models Go `url.QueryEscape` on the ASCII inputs this library handles:
alphanumerics and `-._~` pass through, space becomes a plus sign, everything
else is percent-encoded. -/
def queryEscape (s : String) : String :=
  String.mk ((s.data.map fun c =>
    if c = ' ' then ['+']
    else if c.isAlphanum ∨ c = '-' ∨ c = '_' ∨ c = '.' ∨ c = '~' then [c]
    else ['%', hexDigitUpper (c.toNat / 16), hexDigitUpper (c.toNat % 16)]).flatten)

/-- Models Go `url.Values.Encode`: keys in sorted order, each pair rendered
as escaped key, equals sign, escaped value, pairs joined by ampersands. -/
def encodeValues (vs : List (String × String)) : String :=
  String.intercalate "&"
    ((sortByKey vs).map fun kv => queryEscape kv.1 ++ "=" ++ queryEscape kv.2)

/-! ## TimeHelper (`pkg/client/helpers.go`) -/

namespace TimeHelper

/-- Models `TimeHelper.ParseTimeString`: split on the colon, require exactly
two parts, parse each with `strconv.Atoi`, then validate the hour range
[0,23] and the minute range [0,59], returning the exact source error
messages on failure. -/
def ParseTimeString (timeStr : String) : Except String (Int × Int) :=
  match goSplit timeStr ':' with
  | [p0, p1] =>
    match atoi p0 with
    | none => .error ("invalid hour: " ++ p0)
    | some hour =>
      match atoi p1 with
      | none => .error ("invalid minute: " ++ p1)
      | some minute =>
        if hour < 0 ∨ hour > 23 then .error "hour must be between 0 and 23"
        else if minute < 0 ∨ minute > 59 then .error "minute must be between 0 and 59"
        else .ok (hour, minute)
  | _ => .error "invalid time format, expected HH:MM"

/-- Models `TimeHelper.ParseDuration`: parse with `ParseTimeString`
(propagating its error unchanged) and return total minutes. -/
def ParseDuration (durationStr : String) : Except String Int :=
  match ParseTimeString durationStr with
  | .error e => .error e
  | .ok (hour, minute) => .ok (hour * 60 + minute)

end TimeHelper

/-! ## RouteHelper (`pkg/client/helpers.go`) -/

namespace RouteHelper

/-- Models `RouteHelper.ParseRoute`: trim the route, return the empty slice
on an empty result, otherwise split into fields and keep every field that is
nonempty after trimming (the source re-trims each field defensively). -/
def ParseRoute (route : String) : List String :=
  let route := trimSpace route
  if route = "" then []
  else
    let parts := (tokens route.data).map String.mk
    (parts.map trimSpace).filter (fun p => p ≠ "")

/-- Models `RouteHelper.FormatFlightLevel`: integer-divide feet by 100
(Go division truncates toward zero) and render as FL with three zero-padded
digits. -/
def FormatFlightLevel (feet : Int) : String :=
  "FL" ++ sprintf03d (Int.tdiv feet 100)

/-- Models `RouteHelper.ParseFlightLevel`: trim and uppercase; with an FL
marker at the front, parse the rest as an integer and multiply by 100;
otherwise parse the whole string directly as feet; fail with the source
format errors. -/
def ParseFlightLevel (flStr : String) : Except String Int :=
  let flStr := goToUpper (trimSpace flStr)
  match flStr.data with
  | 'F' :: 'L' :: rest =>
    match atoi (String.mk rest) with
    | none => .error ("invalid flight level format: " ++ String.mk rest)
    | some fl => .ok (fl * 100)
  | cs =>
    match atoi (String.mk cs) with
    | none => .error ("invalid altitude format: " ++ String.mk cs)
    | some feet => .ok feet

end RouteHelper

/-! ## JSON values and the polymorphic static-ID field (`pkg/types/response.go`) -/

/-- Abstract JSON values, the wire data that `encoding/json` passes to a
custom `UnmarshalJSON` method. -/
inductive Json where
  | null
  | bool (b : Bool)
  | num (q : Rat)
  | str (s : String)
  | arr (elems : List Json)
  | obj (fields : List (String × Json))

/-- True exactly for JSON strings. -/
def Json.isStr : Json → Bool
  | .str _ => true
  | _ => false

/-- True exactly for JSON objects. -/
def Json.isObj : Json → Bool
  | .obj _ => true
  | _ => false

/-- Models `json.Unmarshal(data, &str)` for a target of type `string`:
succeeds on a JSON string, and on JSON `null` (which Go treats as a no-op,
leaving the zero value `""`); fails on every other JSON value. -/
def unmarshalGoString : Json → Option String
  | .str s => some s
  | .null => some ""
  | _ => none

/-- Models `json.Unmarshal(data, &obj)` for a target of type
`map[string]interface{}`: succeeds on any JSON object (keys are kept) and on
JSON `null` (no-op leaving the nil map); fails on every other JSON value. -/
def unmarshalGoMap : Json → Option (List (String × Json))
  | .obj kvs => some kvs
  | .null => some []
  | _ => none

/-- Models `StaticIDField.UnmarshalJSON`: first try the raw value as a plain
string; if that fails, try it as a `map[string]interface{}` and treat success
as the empty string; if both fail, return the format error.  The result is
the `Value` field on success. -/
def StaticIDField.UnmarshalJSON (data : Json) : Except String String :=
  match unmarshalGoString data with
  | some s => .ok s
  | none =>
    match unmarshalGoMap data with
    | some _ => .ok ""
    | none => .error "static_id must be either string or object"

/-- Models `StaticIDField.MarshalJSON`: the empty value is emitted as the
empty JSON object, any other value as the plain JSON string. -/
def StaticIDField.MarshalJSON (value : String) : Json :=
  if value = "" then .obj [] else .str value

/-! ## Request model (`pkg/types/request.go`) -/

/-- Weight/fuel units, a string-valued enumeration (`pkg/types/enums.go`). -/
abbrev Units := String

/-- Custom aircraft data; all fields carry the `omitempty` JSON option. -/
structure AircraftData where
  Category : String := ""
  Equipment : String := ""
  Transponder : String := ""
  PBN : String := ""
  ExtraRemark : String := ""
  MaxPax : String := ""
  OEW : Rat := 0
  MZFW : Rat := 0
  MTOW : Rat := 0
  MLW : Rat := 0
  MaxFuel : Rat := 0
  HexCode : String := ""
  Per : String := ""
  PaxWgt : Int := 0
  ICAO : String := ""
  Name : String := ""
  Engines : String := ""

/-- One escaped character of a JSON string, as Go `encoding/json` emits it:
quote and backslash get a backslash, newline, carriage return and tab get
their shorthand escapes, HTML-relevant characters and the remaining controls
become lowercase `u` escapes. -/
def jsonEscapeChar (c : Char) : List Char :=
  if c = Char.ofNat 34 then ['\\', Char.ofNat 34]
  else if c = '\\' then ['\\', '\\']
  else if c = '\n' then ['\\', 'n']
  else if c = '\r' then ['\\', 'r']
  else if c = '\t' then ['\\', 't']
  else if c = '<' then ['\\', 'u', '0', '0', '3', 'c']
  else if c = '>' then ['\\', 'u', '0', '0', '3', 'e']
  else if c = '&' then ['\\', 'u', '0', '0', '2', '6']
  else if c.toNat < 32 then
    ['\\', 'u', '0', '0',
      (if c.toNat / 16 < 10 then Char.ofNat (48 + c.toNat / 16) else Char.ofNat (87 + c.toNat / 16)),
      (if c.toNat % 16 < 10 then Char.ofNat (48 + c.toNat % 16) else Char.ofNat (87 + c.toNat % 16))]
  else [c]

/-- A JSON string literal (quoted, escaped), as a character list. -/
def jsonQuote (s : String) : List Char :=
  Char.ofNat 34 :: (s.data.map jsonEscapeChar).flatten ++ [Char.ofNat 34]

/-- A string member of a JSON object under `omitempty`: omitted when empty. -/
def jsonStrField (key s : String) : List (List Char) :=
  if s = "" then [] else [jsonQuote key ++ ':' :: jsonQuote s]

/-- Drops trailing zero digits. -/
def stripTrailingZeros (cs : List Char) : List Char :=
  (cs.reverse.dropWhile (fun c => c = '0')).reverse

/-- Models the Go `encoding/json` float encoder: zero renders as `0`;
magnitudes in [1e-6, 1e21) use the shortest plain-decimal format
(`strconv.AppendFloat` with the `f` verb); other magnitudes use exponent
notation with the shortest mantissa, a signed exponent of at least two
digits, and the json cleanup that shortens a two-digit negative exponent
with a leading zero (`1e-07` becomes `1e-7`).  As everywhere in this file,
float64 values are modelled as exact rationals whose shortest faithful
digits are their exact finite decimal digits. -/
def jsonFormatFloat (q : Rat) : String :=
  if q = 0 then "0"
  else if 1 / (10 : Rat) ^ (6 : Nat) ≤ |q| ∧ |q| < (10 : Rat) ^ (21 : Nat) then formatFloat q
  else
    match (List.range 1100).findSome? (fun k =>
        if (q * ((10 : Rat) ^ k)).den = 1 then some ((q * ((10 : Rat) ^ k)).num, k) else none) with
    | some (n, k) =>
        let D := Nat.repr n.natAbs
        let M := stripTrailingZeros D.data
        let e10 : Int := (D.length : Int) - 1 - k
        let mantissa :=
          match M with
          | [] => "0"
          | d :: [] => String.mk [d]
          | d :: rest => String.mk [d] ++ "." ++ String.mk rest
        let expStr :=
          if e10 < 0 then "-" ++ Nat.repr e10.natAbs
          else "+" ++ zeroPadLeft 2 (Nat.repr e10.natAbs)
        (if n < 0 then "-" else "") ++ mantissa ++ "e" ++ expStr
    | none => Int.repr q.num ++ "/" ++ Nat.repr q.den

/-- A float member of a JSON object under `omitempty`: omitted when zero,
rendered by the json float encoder. -/
def jsonFloatField (key : String) (q : Rat) : List (List Char) :=
  if q = 0 then [] else [jsonQuote key ++ ':' :: (jsonFormatFloat q).data]

/-- An int member of a JSON object under `omitempty`: omitted when zero. -/
def jsonIntField (key : String) (n : Int) : List (List Char) :=
  if n = 0 then [] else [jsonQuote key ++ ':' :: (Int.repr n).data]

/-- The members of the `AircraftData` JSON object, in declaration order,
with empty and zero members omitted. -/
def AircraftData.renderFields (ad : AircraftData) : List (List Char) :=
  jsonStrField "cat" ad.Category ++
  jsonStrField "equip" ad.Equipment ++
  jsonStrField "transponder" ad.Transponder ++
  jsonStrField "pbn" ad.PBN ++
  jsonStrField "extrarmk" ad.ExtraRemark ++
  jsonStrField "maxpax" ad.MaxPax ++
  jsonFloatField "oew" ad.OEW ++
  jsonFloatField "mzfw" ad.MZFW ++
  jsonFloatField "mtow" ad.MTOW ++
  jsonFloatField "mlw" ad.MLW ++
  jsonFloatField "maxfuel" ad.MaxFuel ++
  jsonStrField "hexcode" ad.HexCode ++
  jsonStrField "per" ad.Per ++
  jsonIntField "paxwgt" ad.PaxWgt ++
  jsonStrField "icao" ad.ICAO ++
  jsonStrField "name" ad.Name ++
  jsonStrField "engines" ad.Engines

/-- Models `AircraftData.String()` on a present value: the JSON object with
empty and zero members omitted (`json.Marshal` of the struct). -/
def AircraftData.render (ad : AircraftData) : String :=
  String.mk (Char.ofNat 123 :: List.intercalate [','] ad.renderFields ++ [Char.ofNat 125])

/-- The flight-plan generation request, one field per wire parameter.
String fields default to empty, numeric fields to zero, optional booleans
and the aircraft-data record to absent, exactly as the Go zero value. -/
structure FlightPlanRequest where
  Origin : String := ""
  Destination : String := ""
  Aircraft : String := ""
  Airline : String := ""
  FlightNumber : String := ""
  Date : String := ""
  DepartureHour : Int := 0
  DepartureMinute : Int := 0
  Route : String := ""
  ScheduledHour : Int := 0
  ScheduledMinute : Int := 0
  Registration : String := ""
  FinNumber : String := ""
  SELCAL : String := ""
  ATCCallsign : String := ""
  Passengers : Int := 0
  CaptainName : String := ""
  DispatcherName : String := ""
  PilotID : String := ""
  Alternate : String := ""
  Altitude : String := ""
  AltnCount : Int := 0
  AltnAvoid : String := ""
  Altn1ID : String := ""
  Altn1Runway : String := ""
  Altn1Route : String := ""
  Altn2ID : String := ""
  Altn2Runway : String := ""
  Altn2Route : String := ""
  Altn3ID : String := ""
  Altn3Runway : String := ""
  Altn3Route : String := ""
  Altn4ID : String := ""
  Altn4Runway : String := ""
  Altn4Route : String := ""
  FuelFactor : String := ""
  ManualZFW : Rat := 0
  AddedFuel : String := ""
  AddedFuelUnits : String := ""
  ContFuelPct : String := ""
  ReserveFuel : Int := 0
  Cargo : Rat := 0
  TaxiOut : Int := 0
  TaxiIn : Int := 0
  OriginRunway : String := ""
  DestRunway : String := ""
  ClimbProfile : String := ""
  DescentProfile : String := ""
  CruiseProfile : String := ""
  CostIndex : String := ""
  AircraftData : Option AircraftData := none
  ETOPSRule : String := ""
  ManualRemarks : String := ""
  StaticID : String := ""
  PlanFormat : String := ""
  Units : Units := ""
  NavLog : Option Bool := none
  ETOPS : Option Bool := none
  StepClimbs : Option Bool := none
  RunwayAnalysis : Option Bool := none
  NOTAMs : Option Bool := none
  FIRNOTAMs : Option Bool := none
  Maps : String := ""
  OmitSIDs : Option Bool := none
  OmitSTARs : Option Bool := none
  FindSIDSTAR : String := ""

/-- The `addString` helper of `ToURLValues`: add the pair only when the
value is nonempty. -/
def addString (key value : String) : List (String × String) :=
  if value = "" then [] else [(key, value)]

/-- The `addInt` helper of `ToURLValues`: add the decimal rendering
(`strconv.Itoa`) only when the value is nonzero. -/
def addInt (key : String) (value : Int) : List (String × String) :=
  if value = 0 then [] else [(key, Int.repr value)]

/-- The `addFloat` helper of `ToURLValues`: add the shortest-decimal
rendering (`strconv.FormatFloat`) only when the value is nonzero. -/
def addFloat (key : String) (value : Rat) : List (String × String) :=
  if value = 0 then [] else [(key, formatFloat value)]

/-- The `addBool` helper of `ToURLValues`: add `1` or `0` only when the
pointer is present. -/
def addBool (key : String) : Option Bool → List (String × String)
  | none => []
  | some b => [(key, if b then "1" else "0")]

/-- The aircraft-data entry of `ToURLValues`: when the pointer is present,
its JSON string is added through `addString`. -/
def acdataEntry : Option AircraftData → List (String × String)
  | none => []
  | some ad => addString "acdata" ad.render

/-- Models `FlightPlanRequest.ToURLValues`: the ordered multimap of wire
parameters, an association list in the exact `values.Add` order of the
source. -/
def FlightPlanRequest.ToURLValues (fpr : FlightPlanRequest) : List (String × String) :=
  addString "orig" fpr.Origin ++
  addString "dest" fpr.Destination ++
  addString "type" fpr.Aircraft ++
  addString "airline" fpr.Airline ++
  addString "fltnum" fpr.FlightNumber ++
  addString "date" fpr.Date ++
  addInt "deph" fpr.DepartureHour ++
  addInt "depm" fpr.DepartureMinute ++
  addString "route" fpr.Route ++
  addInt "steh" fpr.ScheduledHour ++
  addInt "stem" fpr.ScheduledMinute ++
  addString "reg" fpr.Registration ++
  addString "fin" fpr.FinNumber ++
  addString "selcal" fpr.SELCAL ++
  addString "callsign" fpr.ATCCallsign ++
  addInt "pax" fpr.Passengers ++
  addString "cpt" fpr.CaptainName ++
  addString "dxname" fpr.DispatcherName ++
  addString "pid" fpr.PilotID ++
  addString "altn" fpr.Alternate ++
  addString "fl" fpr.Altitude ++
  addInt "altn_count" fpr.AltnCount ++
  addString "altn_avoid" fpr.AltnAvoid ++
  addString "altn_1_id" fpr.Altn1ID ++
  addString "altn_1_rwy" fpr.Altn1Runway ++
  addString "altn_1_route" fpr.Altn1Route ++
  addString "altn_2_id" fpr.Altn2ID ++
  addString "altn_2_rwy" fpr.Altn2Runway ++
  addString "altn_2_route" fpr.Altn2Route ++
  addString "altn_3_id" fpr.Altn3ID ++
  addString "altn_3_rwy" fpr.Altn3Runway ++
  addString "altn_3_route" fpr.Altn3Route ++
  addString "altn_4_id" fpr.Altn4ID ++
  addString "altn_4_rwy" fpr.Altn4Runway ++
  addString "altn_4_route" fpr.Altn4Route ++
  addString "fuelfactor" fpr.FuelFactor ++
  addFloat "manualzfw" fpr.ManualZFW ++
  addString "addedfuel" fpr.AddedFuel ++
  addString "addedfuel_units" fpr.AddedFuelUnits ++
  addString "contpct" fpr.ContFuelPct ++
  addInt "resvrule" fpr.ReserveFuel ++
  addFloat "cargo" fpr.Cargo ++
  addInt "taxiout" fpr.TaxiOut ++
  addInt "taxiin" fpr.TaxiIn ++
  addString "origrwy" fpr.OriginRunway ++
  addString "destrwy" fpr.DestRunway ++
  addString "climb" fpr.ClimbProfile ++
  addString "descent" fpr.DescentProfile ++
  addString "cruise" fpr.CruiseProfile ++
  addString "civalue" fpr.CostIndex ++
  acdataEntry fpr.AircraftData ++
  addString "etopsrule" fpr.ETOPSRule ++
  addString "manualrmk" fpr.ManualRemarks ++
  addString "static_id" fpr.StaticID ++
  addString "planformat" fpr.PlanFormat ++
  addString "units" fpr.Units ++
  addBool "navlog" fpr.NavLog ++
  addBool "etops" fpr.ETOPS ++
  addBool "stepclimbs" fpr.StepClimbs ++
  addBool "tlr" fpr.RunwayAnalysis ++
  addBool "notams" fpr.NOTAMs ++
  addBool "firnot" fpr.FIRNOTAMs ++
  addString "maps" fpr.Maps ++
  addBool "omit_sids" fpr.OmitSIDs ++
  addBool "omit_stars" fpr.OmitSTARs ++
  addString "find_sidstar" fpr.FindSIDSTAR

/-- The wire names of `ToURLValues`, in emission order. -/
def wireKeys : List String :=
  ["orig"] ++ ["dest"] ++ ["type"] ++ ["airline"] ++ ["fltnum"] ++ ["date"] ++
  ["deph"] ++ ["depm"] ++ ["route"] ++ ["steh"] ++ ["stem"] ++ ["reg"] ++
  ["fin"] ++ ["selcal"] ++ ["callsign"] ++ ["pax"] ++ ["cpt"] ++ ["dxname"] ++
  ["pid"] ++ ["altn"] ++ ["fl"] ++ ["altn_count"] ++ ["altn_avoid"] ++
  ["altn_1_id"] ++ ["altn_1_rwy"] ++ ["altn_1_route"] ++
  ["altn_2_id"] ++ ["altn_2_rwy"] ++ ["altn_2_route"] ++
  ["altn_3_id"] ++ ["altn_3_rwy"] ++ ["altn_3_route"] ++
  ["altn_4_id"] ++ ["altn_4_rwy"] ++ ["altn_4_route"] ++
  ["fuelfactor"] ++ ["manualzfw"] ++ ["addedfuel"] ++ ["addedfuel_units"] ++
  ["contpct"] ++ ["resvrule"] ++ ["cargo"] ++ ["taxiout"] ++ ["taxiin"] ++
  ["origrwy"] ++ ["destrwy"] ++ ["climb"] ++ ["descent"] ++ ["cruise"] ++
  ["civalue"] ++ ["acdata"] ++ ["etopsrule"] ++ ["manualrmk"] ++ ["static_id"] ++
  ["planformat"] ++ ["units"] ++ ["navlog"] ++ ["etops"] ++ ["stepclimbs"] ++
  ["tlr"] ++ ["notams"] ++ ["firnot"] ++ ["maps"] ++ ["omit_sids"] ++
  ["omit_stars"] ++ ["find_sidstar"]

/-- The sentinel validation errors of the types package
(`ErrMissingOrigin`, `ErrMissingDestination`, `ErrMissingAircraft`). -/
inductive RequestError where
  | missingOrigin
  | missingDestination
  | missingAircraft
deriving DecidableEq

/-- Models `FlightPlanRequest.Validate`: only the three required fields are
checked for nonemptiness, in order. -/
def FlightPlanRequest.Validate (fpr : FlightPlanRequest) : Option RequestError :=
  if fpr.Origin = "" then some .missingOrigin
  else if fpr.Destination = "" then some .missingDestination
  else if fpr.Aircraft = "" then some .missingAircraft
  else none

/-- The fetch request for existing flight-plan data. -/
structure FetchRequest where
  UserID : String := ""
  Username : String := ""
  StaticID : String := ""
  JSON : Bool := false

/-- The parameters `FetchRequest.ToQueryParams` adds, in `values.Add`
order: each string field when nonempty, and `json=1` when requested. -/
def FetchRequest.queryValues (fr : FetchRequest) : List (String × String) :=
  addString "userid" fr.UserID ++
  addString "username" fr.Username ++
  addString "static_id" fr.StaticID ++
  (if fr.JSON then [("json", "1")] else [])

/-- Models `FetchRequest.ToQueryParams`: the empty string when no parameter
is set, otherwise a question mark followed by the encoded values. -/
def FetchRequest.ToQueryParams (fr : FetchRequest) : String :=
  if fr.queryValues = [] then "" else "?" ++ encodeValues fr.queryValues

/-! ## Client (`pkg/client/client.go`) -/

/-- The client state relevant to URL construction: the API credential and
the base URL (the HTTP transport is out of scope). -/
structure Client where
  APIKey : String := ""
  BaseURL : String := "https://www.simbrief.com"

/-- The values `GenerateFlightPlanURL` encodes: the request parameters,
plus `api_key` appended exactly when the client has a key. -/
def Client.generateValues (c : Client) (req : FlightPlanRequest) : List (String × String) :=
  req.ToURLValues ++ (if c.APIKey ≠ "" then [("api_key", c.APIKey)] else [])

/-- Models `Client.GenerateFlightPlanURL`: base URL, generation endpoint
path, question mark, encoded values. -/
def Client.GenerateFlightPlanURL (c : Client) (req : FlightPlanRequest) : String :=
  c.BaseURL ++ "/system/dispatch.php" ++ "?" ++ encodeValues (c.generateValues req)

/-- Models `Client.ValidateFlightPlanRequest`: the seven checks in source
order with the exact source messages; `len` on a Go string counts bytes. -/
def Client.ValidateFlightPlanRequest (req : FlightPlanRequest) : Option String :=
  if req.Origin = "" then some "origin airport (orig) is required"
  else if req.Destination = "" then some "destination airport (dest) is required"
  else if req.Aircraft = "" then some "aircraft type (type) is required"
  else if req.Origin.utf8ByteSize ≠ 4 then
    some "origin airport code must be 4 characters (ICAO format)"
  else if req.Destination.utf8ByteSize ≠ 4 then
    some "destination airport code must be 4 characters (ICAO format)"
  else if req.DepartureHour ≠ 0 ∧ (req.DepartureHour < 0 ∨ req.DepartureHour > 23) then
    some "departure hour must be between 0 and 23"
  else if req.DepartureMinute ≠ 0 ∧ (req.DepartureMinute < 0 ∨ req.DepartureMinute > 59) then
    some "departure minute must be between 0 and 59"
  else none

end Simbrief

namespace Simbrief

/-! ## Lemmas about whitespace tokenization -/

/-- On an all-whitespace tail the worker just flushes its accumulator. -/
theorem fieldsAux_ws (w : List Char) (hw : ∀ c ∈ w, c.isWhitespace) :
    ∀ acc, fieldsAux acc w = if acc = [] then [] else [acc.reverse] := by
  induction w with
  | nil => intro acc; rfl
  | cons c w ih =>
    intro acc
    have hc : c.isWhitespace := hw c (by simp)
    have hw' : ∀ x ∈ w, x.isWhitespace := fun x hx => hw x (by simp [hx])
    by_cases ha : acc = [] <;>
      simp [fieldsAux, hc, ha, ih hw']

/-- Appending an all-whitespace suffix does not change the fields. -/
theorem fieldsAux_append_ws (w : List Char) (hw : ∀ c ∈ w, c.isWhitespace) :
    ∀ cs acc, fieldsAux acc (cs ++ w) = fieldsAux acc cs := by
  intro cs
  induction cs with
  | nil =>
    intro acc
    simp only [List.nil_append, fieldsAux_ws w hw acc]
    rfl
  | cons c cs ih =>
    intro acc
    by_cases hc : c.isWhitespace <;> by_cases ha : acc = [] <;>
      simp [fieldsAux, hc, ha, ih]

/-- Dropping leading whitespace does not change the fields read from an
empty accumulator. -/
theorem fieldsAux_dropWhile (cs : List Char) :
    fieldsAux [] (cs.dropWhile Char.isWhitespace) = fieldsAux [] cs := by
  induction cs with
  | nil => rfl
  | cons c cs ih =>
    by_cases hc : c.isWhitespace <;>
      simp [List.dropWhile_cons, fieldsAux, hc, ih]

/-- Every list splits as its right-trimmed part plus an all-whitespace
suffix. -/
theorem trimR_decomp (cs : List Char) :
    ∃ w, cs = trimR cs ++ w ∧ ∀ c ∈ w, c.isWhitespace := by
  refine ⟨(cs.reverse.takeWhile Char.isWhitespace).reverse, ?_, ?_⟩
  · conv_lhs => rw [← cs.reverse_reverse,
      ← List.takeWhile_append_dropWhile (p := Char.isWhitespace) (l := cs.reverse)]
    rw [List.reverse_append]
    rfl
  · intro c hc
    rw [List.mem_reverse] at hc
    exact List.mem_takeWhile_imp hc

/-- `tokens` ignores leading and trailing whitespace. -/
theorem tokens_trim (cs : List Char) : tokens (trimR (trimL cs)) = tokens cs := by
  obtain ⟨w, hdec, hw⟩ := trimR_decomp (trimL cs)
  unfold tokens
  calc fieldsAux [] (trimR (trimL cs))
      = fieldsAux [] (trimR (trimL cs) ++ w) := (fieldsAux_append_ws w hw _ _).symm
    _ = fieldsAux [] (trimL cs) := by rw [← hdec]
    _ = fieldsAux [] cs := fieldsAux_dropWhile cs

/-- Every token is nonempty and whitespace-free (as is the accumulator that
produced it). -/
theorem fieldsAux_tokens_clean :
    ∀ (cs acc : List Char), (∀ c ∈ acc, c.isWhitespace = false) →
      ∀ t ∈ fieldsAux acc cs, t ≠ [] ∧ ∀ c ∈ t, c.isWhitespace = false := by
  intro cs
  induction cs with
  | nil =>
    intro acc hacc t ht
    by_cases ha : acc = []
    · simp [fieldsAux, ha] at ht
    · simp only [fieldsAux, if_neg ha, List.mem_singleton] at ht
      subst ht
      refine ⟨by simpa using ha, ?_⟩
      intro c hc
      exact hacc c (List.mem_reverse.mp hc)
  | cons c cs ih =>
    intro acc hacc t ht
    by_cases hc : c.isWhitespace
    · by_cases ha : acc = []
      · rw [ha] at ht
        exact ih [] (by simp) t (by simpa [fieldsAux, hc] using ht)
      · simp only [fieldsAux, hc, if_true, if_neg ha, List.mem_cons] at ht
        rcases ht with ht | ht
        · subst ht
          refine ⟨by simpa using ha, ?_⟩
          intro x hx
          exact hacc x (List.mem_reverse.mp hx)
        · exact ih [] (by simp) t ht
    · refine ih (c :: acc) ?_ t (by simpa [fieldsAux, hc] using ht)
      intro x hx
      rcases List.mem_cons.mp hx with hx | hx
      · subst hx; simpa using hc
      · exact hacc x hx

/-- Trimming a whitespace-free string is the identity. -/
theorem trimSpace_of_clean (t : List Char) (h : ∀ c ∈ t, c.isWhitespace = false) :
    trimSpace (String.mk t) = String.mk t := by
  have hL : trimL t = t := by
    cases t with
    | nil => rfl
    | cons c cs =>
      simp only [trimL, List.dropWhile_cons]
      rw [if_neg (by simp [h c (by simp)])]
  have hR : trimR t = t := by
    unfold trimR
    have : t.reverse.dropWhile Char.isWhitespace = t.reverse := by
      cases hrev : t.reverse with
      | nil => rfl
      | cons c cs =>
        rw [List.dropWhile_cons, if_neg ?_]
        have hc : c ∈ t.reverse := by rw [hrev]; simp
        simp [h c (List.mem_reverse.mp hc)]
    rw [this, List.reverse_reverse]
  show String.mk (trimR (trimL t)) = String.mk t
  rw [hL, hR]

/-- A filter that keeps everything is the identity. -/
theorem filter_all_true {α : Type} (p : α → Bool) (l : List α) (h : ∀ a ∈ l, p a = true) :
    l.filter p = l := by
  induction l with
  | nil => rfl
  | cons a l ih =>
    rw [List.filter_cons, if_pos (h a (by simp))]
    exact congrArg (a :: ·) (ih fun x hx => h x (by simp [hx]))

/-- The route parser agrees with plain whitespace tokenization: the leading
trim, the empty special case, and the per-field re-trim and re-filter in the
source are all no-ops. -/
theorem ParseRoute_eq_tokens (s : String) :
    RouteHelper.ParseRoute s = (tokens s.data).map String.mk := by
  simp only [RouteHelper.ParseRoute]
  by_cases h : trimSpace s = ""
  · rw [if_pos h]
    have h' : trimR (trimL s.data) = [] := congrArg String.data h
    have h2 : tokens s.data = [] := by rw [← tokens_trim s.data, h']; rfl
    rw [h2]; rfl
  · rw [if_neg h]
    have hdata : (trimSpace s).data = trimR (trimL s.data) := rfl
    rw [hdata, tokens_trim]
    have hclean := fieldsAux_tokens_clean s.data [] (by simp)
    rw [List.map_map]
    have hmap : (tokens s.data).map (trimSpace ∘ String.mk) =
        (tokens s.data).map String.mk :=
      List.map_congr_left fun t ht => trimSpace_of_clean t (hclean t ht).2
    rw [hmap]
    refine filter_all_true _ _ fun a ha => ?_
    rcases List.mem_map.mp ha with ⟨t, ht, rfl⟩
    have hne : t ≠ [] := (hclean t ht).1
    simp only [ne_eq, decide_eq_true_eq]
    intro hcontra
    exact hne (congrArg String.data hcontra)

/-! ## Claim theorems about the parsing and formatting helpers -/

/-- C7: the route tokenizer returns exactly the whitespace-delimited tokens
in original order (runs collapsed, ends trimmed); the spaced scenario input
yields its five waypoints and the empty input yields the empty sequence. -/
theorem parseRoute_spec :
    (∀ s : String, RouteHelper.ParseRoute s = (tokens s.data).map String.mk) ∧
    RouteHelper.ParseRoute "  KJFK   HAPIE    J174   COATE   KLAX  " =
      ["KJFK", "HAPIE", "J174", "COATE", "KLAX"] ∧
    RouteHelper.ParseRoute "" = [] :=
  ⟨ParseRoute_eq_tokens, by decide, by decide⟩

/-- C6: the time parser succeeds with `(hour, minute)` exactly when the
input splits on the colon into two integer parts with hour in [0,23] and
minute in [0,59]; out-of-range hours and minutes produce the corresponding
range errors and `14:30` parses. -/
theorem parseTimeString_spec :
    (∀ (s : String) (h m : Int),
      TimeHelper.ParseTimeString s = .ok (h, m) ↔
        ∃ p0 p1, goSplit s ':' = [p0, p1] ∧ atoi p0 = some h ∧ atoi p1 = some m ∧
          0 ≤ h ∧ h ≤ 23 ∧ 0 ≤ m ∧ m ≤ 59) ∧
    TimeHelper.ParseTimeString "25:30" = .error "hour must be between 0 and 23" ∧
    TimeHelper.ParseTimeString "14:60" = .error "minute must be between 0 and 59" ∧
    TimeHelper.ParseTimeString "14:30" = .ok (14, 30) := by
  refine ⟨?_, by decide, by decide, by decide⟩
  intro s h m
  constructor
  · intro hok
    unfold TimeHelper.ParseTimeString at hok
    split at hok
    next p0 p1 heq =>
      split at hok
      next => exact absurd hok (by simp)
      next hour hp0 =>
        split at hok
        next => exact absurd hok (by simp)
        next minute hp1 =>
          split at hok
          next => exact absurd hok (by simp)
          next hcondh =>
            split at hok
            next => exact absurd hok (by simp)
            next hcondm =>
              have hpair := Except.ok.inj hok
              have h1 : hour = h := congrArg Prod.fst hpair
              have h2 : minute = m := congrArg Prod.snd hpair
              subst h1; subst h2
              exact ⟨p0, p1, heq, hp0, hp1, by omega, by omega, by omega, by omega⟩
    next heq => exact absurd hok (by simp)
  · rintro ⟨p0, p1, hsp, hp0, hp1, h0, h23, m0, m59⟩
    unfold TimeHelper.ParseTimeString
    rw [hsp]
    simp only [hp0, hp1]
    rw [if_neg (by omega), if_neg (by omega)]

/-- C4 counterexample: the duration parser does not skip the wall-clock hour
check - hours above 23 are rejected, so `25:00` fails with the hour-range
error instead of being accepted as 1500 minutes. -/
theorem parseDuration_rejects_25 :
    TimeHelper.ParseDuration "25:00" = .error "hour must be between 0 and 23" := by
  decide

/-- C4 (amended): for every duration string of shape HH:MM whose two parts
parse as integers with the hour in [0,23] and the minute in [0,59], the
duration parser succeeds and returns hour*60+minute; the hour-range check of
the time parser is applied, not skipped, so durations beyond 23 hours are
rejected. -/
theorem parseDuration_spec (s p0 p1 : String) (h m : Int)
    (hsp : goSplit s ':' = [p0, p1])
    (hp0 : atoi p0 = some h) (hp1 : atoi p1 = some m)
    (h0 : 0 ≤ h) (h23 : h ≤ 23) (m0 : 0 ≤ m) (m59 : m ≤ 59) :
    TimeHelper.ParseDuration s = .ok (h * 60 + m) := by
  unfold TimeHelper.ParseDuration TimeHelper.ParseTimeString
  rw [hsp]
  simp only [hp0, hp1]
  rw [if_neg (by omega), if_neg (by omega)]

/-- C4 witness: the amended theorem applied at the concrete duration
`02:30`, giving 150 minutes. -/
theorem parseDuration_spec_witness :
    goSplit "02:30" ':' = ["02", "30"] ∧
    atoi "02" = some 2 ∧ atoi "30" = some 30 ∧
    TimeHelper.ParseDuration "02:30" = .ok (2 * 60 + 30) :=
  ⟨by decide, by decide, by decide,
   parseDuration_spec "02:30" "02" "30" 2 30 (by decide) (by decide) (by decide)
     (by decide) (by decide) (by decide) (by decide)⟩

/-- C5: flight-level round trip - for every flight level N in [0, 999],
formatting the altitude N*100 feet produces an FL string that parses back to
exactly N*100 feet. -/
theorem flightLevel_roundtrip :
    ∀ N : Nat, N < 1000 →
      RouteHelper.ParseFlightLevel (RouteHelper.FormatFlightLevel ((N : Int) * 100)) =
        .ok ((N : Int) * 100) := by
  decide

/-- C5 witness: the round trip at flight level 340. -/
theorem flightLevel_roundtrip_witness :
    340 < 1000 ∧
    RouteHelper.ParseFlightLevel (RouteHelper.FormatFlightLevel ((340 : Int) * 100)) =
      .ok ((340 : Int) * 100) :=
  ⟨by decide, flightLevel_roundtrip 340 (by decide)⟩

/-! ## Claim theorems about the static-ID field -/

/-- C2: the static-ID codec is a two-step decoder (plain string first, then
keyed object meaning the empty string, error only when both fail) with the
symmetric encoder (empty string to empty object, otherwise plain string), and
decoding after encoding recovers every string exactly. -/
theorem staticID_roundtrip :
    (∀ s : String, StaticIDField.UnmarshalJSON (StaticIDField.MarshalJSON s) = .ok s) ∧
    StaticIDField.MarshalJSON "" = .obj [] ∧
    (∀ s : String, s ≠ "" → StaticIDField.MarshalJSON s = .str s) ∧
    (∀ j : Json, StaticIDField.UnmarshalJSON j =
      match unmarshalGoString j with
      | some s => .ok s
      | none =>
        match unmarshalGoMap j with
        | some _ => .ok ""
        | none => .error "static_id must be either string or object") := by
  refine ⟨?_, rfl, ?_, fun j => rfl⟩
  · intro s
    by_cases h : s = "" <;>
      simp [StaticIDField.MarshalJSON, StaticIDField.UnmarshalJSON, h,
        unmarshalGoString, unmarshalGoMap]
  · intro s h
    simp [StaticIDField.MarshalJSON, h]

/-- C2 witness: the round trip at the empty string and at a concrete
nonempty string. -/
theorem staticID_roundtrip_witness :
    StaticIDField.UnmarshalJSON (StaticIDField.MarshalJSON "ABC_12345") = .ok "ABC_12345" ∧
    StaticIDField.MarshalJSON "ABC_12345" = .str "ABC_12345" :=
  ⟨staticID_roundtrip.1 "ABC_12345",
   staticID_roundtrip.2.2.1 "ABC_12345" (by decide)⟩

/-- C9 counterexample: JSON `null` is neither a string nor an object, yet
decoding it succeeds (Go unmarshals `null` into a string as a no-op, leaving
the zero value), so decoding does not fail exactly on non-string non-object
input as claimed. -/
theorem staticID_null_decodes :
    StaticIDField.UnmarshalJSON Json.null = .ok "" ∧
    Json.null.isStr = false ∧ Json.null.isObj = false := by
  exact ⟨rfl, rfl, rfl⟩

/-- C9 (amended): decoding any JSON object, with or without keys, succeeds
and yields the empty string; decoding a string yields that string; decoding
fails exactly when the raw value is neither a string, an object, nor JSON
`null` (which the Go no-op null handling also accepts as the empty string) -
i.e. precisely on numbers, booleans, and arrays. -/
theorem staticID_decode_domain :
    (∀ kvs, StaticIDField.UnmarshalJSON (Json.obj kvs) = .ok "") ∧
    (∀ s, StaticIDField.UnmarshalJSON (Json.str s) = .ok s) ∧
    (StaticIDField.UnmarshalJSON Json.null = .ok "") ∧
    (∀ b, StaticIDField.UnmarshalJSON (Json.bool b) =
      .error "static_id must be either string or object") ∧
    (∀ q, StaticIDField.UnmarshalJSON (Json.num q) =
      .error "static_id must be either string or object") ∧
    (∀ elems, StaticIDField.UnmarshalJSON (Json.arr elems) =
      .error "static_id must be either string or object") :=
  ⟨fun _ => rfl, fun _ => rfl, rfl, fun _ => rfl, fun _ => rfl, fun _ => rfl⟩

/-! ## Membership lemmas for the encoder -/

/-- Membership in an `addString` entry. -/
theorem mem_addString {p : String × String} {k v : String} :
    p ∈ addString k v ↔ v ≠ "" ∧ p = (k, v) := by
  unfold addString
  split
  next h => simp [h]
  next h => simp [h]

/-- `addString` keys. -/
theorem keys_addString_sub (k v : String) : ((addString k v).map Prod.fst).Sublist [k] := by
  unfold addString
  split
  next => simp
  next => simp

/-- `addInt` keys. -/
theorem keys_addInt_sub (k : String) (v : Int) : ((addInt k v).map Prod.fst).Sublist [k] := by
  unfold addInt
  split
  next => simp
  next => simp

/-- `addFloat` keys. -/
theorem keys_addFloat_sub (k : String) (v : Rat) : ((addFloat k v).map Prod.fst).Sublist [k] := by
  unfold addFloat
  split
  next => simp
  next => simp

/-- `addBool` keys. -/
theorem keys_addBool_sub (k : String) (ob : Option Bool) :
    ((addBool k ob).map Prod.fst).Sublist [k] := by
  cases ob
  · simp [addBool]
  · simp [addBool]

/-- Aircraft-data entry keys. -/
theorem keys_acdataEntry_sub (o : Option AircraftData) :
    ((acdataEntry o).map Prod.fst).Sublist ["acdata"] := by
  cases o
  · simp [acdataEntry]
  · exact keys_addString_sub _ _

/-- The encoded keys form a sublist of the wire-name list. -/
theorem toURLValues_keys_sublist (fpr : FlightPlanRequest) :
    ((fpr.ToURLValues).map Prod.fst).Sublist wireKeys := by
  simp only [FlightPlanRequest.ToURLValues, wireKeys, List.map_append]
  repeat' apply List.Sublist.append
  all_goals first
    | exact keys_addString_sub _ _
    | exact keys_addInt_sub _ _
    | exact keys_addFloat_sub _ _
    | exact keys_addBool_sub _ _
    | exact keys_acdataEntry_sub _

/-- C3: the client validator reports exactly the first failing check in the
fixed order: missing origin, missing destination, missing aircraft, origin
length, destination length, hour range (only when nonzero), minute range
(only when nonzero); in particular a request missing both airports reports
the origin error. -/
theorem validateFlightPlanRequest_spec (req : FlightPlanRequest) :
    (req.Origin = "" →
      Client.ValidateFlightPlanRequest req = some "origin airport (orig) is required") ∧
    (Client.ValidateFlightPlanRequest req = some "origin airport (orig) is required" ↔
      req.Origin = "") ∧
    (Client.ValidateFlightPlanRequest req = some "destination airport (dest) is required" ↔
      req.Origin ≠ "" ∧ req.Destination = "") ∧
    (Client.ValidateFlightPlanRequest req = some "aircraft type (type) is required" ↔
      req.Origin ≠ "" ∧ req.Destination ≠ "" ∧ req.Aircraft = "") ∧
    (Client.ValidateFlightPlanRequest req =
        some "origin airport code must be 4 characters (ICAO format)" ↔
      req.Origin ≠ "" ∧ req.Destination ≠ "" ∧ req.Aircraft ≠ "" ∧
        req.Origin.utf8ByteSize ≠ 4) ∧
    (Client.ValidateFlightPlanRequest req =
        some "destination airport code must be 4 characters (ICAO format)" ↔
      req.Origin ≠ "" ∧ req.Destination ≠ "" ∧ req.Aircraft ≠ "" ∧
        req.Origin.utf8ByteSize = 4 ∧ req.Destination.utf8ByteSize ≠ 4) ∧
    (Client.ValidateFlightPlanRequest req = some "departure hour must be between 0 and 23" ↔
      req.Origin ≠ "" ∧ req.Destination ≠ "" ∧ req.Aircraft ≠ "" ∧
        req.Origin.utf8ByteSize = 4 ∧ req.Destination.utf8ByteSize = 4 ∧
        (req.DepartureHour ≠ 0 ∧ (req.DepartureHour < 0 ∨ req.DepartureHour > 23))) ∧
    (Client.ValidateFlightPlanRequest req = some "departure minute must be between 0 and 59" ↔
      req.Origin ≠ "" ∧ req.Destination ≠ "" ∧ req.Aircraft ≠ "" ∧
        req.Origin.utf8ByteSize = 4 ∧ req.Destination.utf8ByteSize = 4 ∧
        ¬(req.DepartureHour ≠ 0 ∧ (req.DepartureHour < 0 ∨ req.DepartureHour > 23)) ∧
        (req.DepartureMinute ≠ 0 ∧ (req.DepartureMinute < 0 ∨ req.DepartureMinute > 59))) ∧
    (Client.ValidateFlightPlanRequest req = none ↔
      req.Origin ≠ "" ∧ req.Destination ≠ "" ∧ req.Aircraft ≠ "" ∧
        req.Origin.utf8ByteSize = 4 ∧ req.Destination.utf8ByteSize = 4 ∧
        ¬(req.DepartureHour ≠ 0 ∧ (req.DepartureHour < 0 ∨ req.DepartureHour > 23)) ∧
        ¬(req.DepartureMinute ≠ 0 ∧ (req.DepartureMinute < 0 ∨ req.DepartureMinute > 59))) := by
  unfold Client.ValidateFlightPlanRequest
  split_ifs with h1 h2 h3 h4 h5 h6 h7 <;> simp_all

/-- C3 witness: a request missing both origin and destination reports the
origin error, by the ordering theorem at a concrete request. -/
theorem validateFlightPlanRequest_spec_witness :
    Client.ValidateFlightPlanRequest { Aircraft := "B738" } =
      some "origin airport (orig) is required" :=
  (validateFlightPlanRequest_spec { Aircraft := "B738" }).1 (by decide)

/-- C10: the model-level validator checks only that the three required
fields are nonempty; a request with short airport codes and an out-of-range
departure time still passes it, while the client-side validator rejects the
same request. -/
theorem validate_required_only :
    (∀ r : FlightPlanRequest,
      r.Validate = none ↔ r.Origin ≠ "" ∧ r.Destination ≠ "" ∧ r.Aircraft ≠ "") ∧
    (∀ r : FlightPlanRequest, r.Validate = some .missingOrigin ↔ r.Origin = "") ∧
    FlightPlanRequest.Validate
      { Origin := "AB", Destination := "CDE", Aircraft := "B738",
        DepartureHour := 99, DepartureMinute := 77 } = none ∧
    Client.ValidateFlightPlanRequest
      { Origin := "AB", Destination := "CDE", Aircraft := "B738",
        DepartureHour := 99, DepartureMinute := 77 } =
      some "origin airport code must be 4 characters (ICAO format)" := by
  refine ⟨?_, ?_, by decide, by decide⟩
  · intro r
    unfold FlightPlanRequest.Validate
    split_ifs with h1 h2 h3 <;> simp_all
  · intro r
    unfold FlightPlanRequest.Validate
    split_ifs with h1 h2 h3 <;> simp_all

/-- C8: the API credential appears only on the generation endpoint - the
generation values contain an `api_key` parameter exactly when the client has
a nonempty key, and the fetch query parameters never contain one. -/
theorem apiKey_only_on_generate :
    (∀ (c : Client) (req : FlightPlanRequest),
      (∃ v, ("api_key", v) ∈ c.generateValues req) ↔ c.APIKey ≠ "") ∧
    (∀ (fr : FetchRequest) (v : String), ("api_key", v) ∉ fr.queryValues) := by
  constructor
  · intro c req
    constructor
    · rintro ⟨v, hv⟩
      rcases List.mem_append.mp hv with hv | hv
      · exfalso
        have hk : "api_key" ∈ (req.ToURLValues).map Prod.fst :=
          List.mem_map_of_mem Prod.fst hv
        have hk2 : "api_key" ∈ wireKeys := (toURLValues_keys_sublist req).subset hk
        exact absurd hk2 (by decide)
      · by_cases h : c.APIKey = ""
        · simp [h] at hv
        · exact h
    · intro h
      exact ⟨c.APIKey, List.mem_append.mpr (Or.inr (by simp [h]))⟩
  · intro fr v hv
    cases hj : fr.JSON <;>
      simp [FetchRequest.queryValues, mem_addString, hj, Prod.mk.injEq] at hv

end Simbrief
